import Mathlib

/-!
Shallow embedding of the singer target-postgres dispatcher
(`target_postgres/__init__.py`): message dispatch, per-stream batch
buffering, numeric-precision calibration, checkpoint bookkeeping.
JSON numbers are modelled as exact rationals (the source routes every
number through `float_to_decimal`, which converts floats to exact
decimals before any arithmetic on them).
-/

/-- A JSON value, as it appears in a parsed schema document. -/
inductive JSchema where
  | num (q : ℚ)
  | str (s : String)
  | boolV (b : Bool)
  | nullV
  | arr (l : List JSchema)
  | obj (l : List (String × JSchema))
deriving Repr

/-- Association-list lookup, modelling python dict access `d[k]` / `k in d`. -/
def alookup {α : Type} (l : List (String × α)) (k : String) : Option α :=
  match l with
  | [] => none
  | (k', v) :: t => if k' = k then some v else alookup t k

/-- Python dict assignment `d[k] = v`: replaces in place when the key is
present, otherwise appends (python dicts preserve insertion order). -/
def aset {α : Type} (l : List (String × α)) (k : String) (v : α) : List (String × α) :=
  match l with
  | [] => [(k, v)]
  | (k', v') :: t => if k' = k then (k, v) :: t else (k', v') :: aset t k v

/-- Does a JSON value equal the python string `"number"`? Used for the
membership test `'number' in schema['type']`. -/
def isNumberStr : JSchema → Bool
  | .str s => s = "number"
  | _ => false

/-- Source `numeric_schema_with_precision`: the fragment's declared type
includes "number" and it carries at least one of multipleOf, minimum,
maximum. -/
def numeric_schema_with_precision (l : List (String × JSchema)) : Bool :=
  match alookup l "type" with
  | none => false
  | some t =>
    (match t with
     | .arr ts => ts.any isNumberStr
     | .str s => s = "number"
     | _ => false)
    && ((alookup l "multipleOf").isSome || (alookup l "minimum").isSome
        || (alookup l "maximum").isSome)

/-- The value `math.log10` is applied to, when defined: a number yields
itself, python booleans are the ints 1 and 0 (log10 of 0 is a domain
error), anything else is a TypeError. -/
def logArg : JSchema → Option ℚ
  | .num q => some q
  | .boolV true => some 1
  | .boolV false => none
  | _ => none

/-- Source closure `get_precision(key)` inside
`walk_schema_for_numeric_precision`: `v = log10(schema.get(key, 1))`,
floor of v when v is negative (the value is below 1), ceiling otherwise.
`none` models the exceptions python raises (log10 domain error on a
nonpositive value, TypeError on a non-numeric one). -/
def get_precision (l : List (String × JSchema)) (key : String) : Option ℤ :=
  match (match alookup l key with | none => some (1 : ℚ) | some j => logArg j) with
  | none => none
  | some q =>
    if 0 < q then some (if q < 1 then Int.log 10 q else Int.clog 10 q) else none

/-- The precision the source computes for one qualifying numeric fragment:
`scale = -get_precision('multipleOf')`,
`digits = max (get_precision('minimum')) (get_precision('maximum'))`,
`precision = digits + scale`. -/
def fragPrecision (l : List (String × JSchema)) : Option ℤ :=
  match get_precision l "multipleOf" with
  | none => none
  | some m =>
    match get_precision l "minimum", get_precision l "maximum" with
    | some mn, some mx => some (max mn mx + (-m))
    | _, _ => none

mutual

/-- Source `walk_schema_for_numeric_precision`, with the process-wide
decimal context precision threaded explicitly: lists are walked
elementwise, a dict that qualifies as a constrained numeric fragment
raises the precision to the computed value when it is larger (and is not
recursed into), any other dict is walked valuewise, and every other value
is ignored. -/
def walkPrec : JSchema → ℤ → Option ℤ
  | .arr l, p => walkPrecList l p
  | .obj l, p =>
    if numeric_schema_with_precision l then
      match fragPrecision l with
      | none => none
      | some pr => some (if p < pr then pr else p)
    else walkPrecVals l p
  | _, p => some p

/-- Walk the elements of a JSON array in order. -/
def walkPrecList : List JSchema → ℤ → Option ℤ
  | [], p => some p
  | x :: xs, p =>
    match walkPrec x p with
    | none => none
    | some p' => walkPrecList xs p'

/-- Walk the values of a JSON object in insertion order
(`for v in schema.values()`). -/
def walkPrecVals : List (String × JSchema) → ℤ → Option ℤ
  | [], p => some p
  | (_, x) :: xs, p =>
    match walkPrec x p with
    | none => none
    | some p' => walkPrecVals xs p'

end

/-! ## Dispatcher state and messages -/

/-- Errors raised by `persist_lines` (python raises generic exceptions;
these constructors record the raise site, the spec groups them into its
taxonomy via `Err.isProtocol`). -/
inductive Err where
  | badJson
  | missingType
  | missingStream
  | recordBeforeSchema
  | validationError
  | domainError
  | missingKeyProperties
  | unknownType
deriving Repr, DecidableEq

/-- The spec's `ProtocolError` class: malformed or out-of-order message
(RECORD before SCHEMA, missing required field, unknown message kind). -/
def Err.isProtocol : Err → Bool
  | .missingType => true
  | .missingStream => true
  | .recordBeforeSchema => true
  | .missingKeyProperties => true
  | .unknownType => true
  | _ => false

/-- A RECORD message after JSON parsing. `pk` is the primary-key string the
external sink adapter computes for the record (empty = falsy, no key);
`csvLine` its serialized form; `valid` whether the jsonschema validator
accepts the record (the validator itself is the external collaborator). -/
structure RecMsg where
  stream : Option String
  pk : String
  csvLine : String
  valid : Bool
deriving Repr, DecidableEq

/-- One parsed input line. `badJsonMsg` models an unparseable line,
`missingTypeMsg` a JSON object without a `type` field, `unknownMsg` an
unrecognized `type` value. A STATE message carries `o['value']`
(possibly JSON null, modelled as `none`). -/
inductive Msg where
  | record (r : RecMsg)
  | stateMsg (v : Option String)
  | schemaMsg (stream : Option String) (doc : JSchema) (keyProps : Option (List String))
  | activateVersion
  | unknownMsg (t : String)
  | missingTypeMsg
  | badJsonMsg
deriving Repr

/-- The mutable state of `persist_lines`, plus two observables: `flushLog`
records every `sync.load_csv` call as (stream, staged lines, row count),
and `prec` is the process-wide `decimal.getcontext().prec`. -/
structure PState where
  ck : Option String
  schemas : List String
  keyProps : List (String × List String)
  rowCount : List (String × Nat)
  csvFiles : List (String × List String)
  pkExists : List (String × List String)
  flushLog : List (String × List String × Nat)
  prec : ℤ
deriving Repr, DecidableEq

/-- State at interpreter start; python's default decimal precision is 28. -/
def initState : PState :=
  { ck := none, schemas := [], keyProps := [], rowCount := [], csvFiles := [],
    pkExists := [], flushLog := [], prec := 28 }

/-- Target configuration, as far as the core consumes it. -/
structure Config where
  batch_size : Option Nat
deriving Repr, DecidableEq

/-- `config['batch_size'] if 'batch_size' in config else 100000`. -/
def batchSize (c : Config) : Nat := c.batch_size.getD 100000

/-- The stream's staged csv lines (contents of `csv_files_to_load[s]`). -/
def rowsOf (st : PState) (s : String) : List String := (alookup st.csvFiles s).getD []

/-- The stream's `row_count[s]`. -/
def countOf (st : PState) (s : String) : Nat := (alookup st.rowCount s).getD 0

/-- The stream's seen primary-key strings (keys of `primary_key_exists[s]`). -/
def seenOf (st : PState) (s : String) : List String := (alookup st.pkExists s).getD []

/-- Source `flush_records`: hand the staged block and row count to the sink
adapter's bulk load, then reset row count, seen keys and staging block. -/
def flush_records (st : PState) (s : String) : PState :=
  { st with
    flushLog := st.flushLog ++ [(s, rowsOf st s, countOf st s)],
    rowCount := aset st.rowCount s 0,
    pkExists := aset st.pkExists s [],
    csvFiles := aset st.csvFiles s [] }

/-- Lines 121-122: `if stream not in primary_key_exists:
primary_key_exists[stream] = {}`. -/
def ensurePk (st : PState) (s : String) : PState :=
  if (alookup st.pkExists s).isSome then st
  else { st with pkExists := aset st.pkExists s [] }

/-- Python dict-key insertion `seen[pk] = True` on the seen-key set. -/
def insertSeen (l : List String) (pk : String) : List String :=
  if pk ∈ l then l else l ++ [pk]

/-- Lines 126-130: append the serialized record to the staging block,
bump the row count, record a non-empty primary-key string as seen. -/
def stage (st : PState) (s pk csvLine : String) : PState :=
  let st1 := { st with csvFiles := aset st.csvFiles s (rowsOf st s ++ [csvLine]) }
  let st2 := { st1 with rowCount := aset st1.rowCount s (countOf st1 s + 1) }
  if pk ≠ "" then
    { st2 with pkExists := aset st2.pkExists s (insertSeen (seenOf st2 s) pk) }
  else st2

/-- RECORD branch of `persist_lines` (lines 105-135). On an exception the
returned state carries whatever mutations preceded the raise. -/
def stepRecord (cfg : Config) (st : PState) (r : RecMsg) : PState × Option Err :=
  match r.stream with
  | none => (st, some .missingStream)
  | some s =>
    if s ∈ st.schemas then
      if r.valid then
        let st1 := ensurePk st s
        let st2 := if r.pk ≠ "" ∧ r.pk ∈ seenOf st1 s then flush_records st1 s else st1
        let st3 := stage st2 s r.pk r.csvLine
        let st4 := if batchSize cfg ≤ countOf st3 s then flush_records st3 s else st3
        ({ st4 with ck := none }, none)
      else (st, some .validationError)
    else (st, some .recordBeforeSchema)

/-- Membership-preserving insert for the set of declared streams
(`schemas[stream] = o` — only membership is observable in the model). -/
def insertStream (l : List String) (s : String) : List String :=
  if s ∈ l then l else l ++ [s]

/-- SCHEMA branch of `persist_lines` (lines 139-154): register the stream,
walk the schema for numeric precision, require `key_properties`, then
reset the stream's row count and staging block (note: not its seen-key
set). The sink-adapter calls (DbSync, create_schema, sync_table) are
external and stateless here. -/
def stepSchema (st : PState) (stream? : Option String) (doc : JSchema)
    (kp? : Option (List String)) : PState × Option Err :=
  match stream? with
  | none => (st, some .missingStream)
  | some s =>
    let st1 := { st with schemas := insertStream st.schemas s }
    match walkPrec doc st1.prec with
    | none => (st1, some .domainError)
    | some p =>
      let st2 := { st1 with prec := p }
      match kp? with
      | none => (st2, some .missingKeyProperties)
      | some kp =>
        ({ st2 with
           keyProps := aset st2.keyProps s kp,
           rowCount := aset st2.rowCount s 0,
           csvFiles := aset st2.csvFiles s [] }, none)

/-- One iteration of the dispatch loop of `persist_lines`. -/
def step (cfg : Config) (st : PState) (m : Msg) : PState × Option Err :=
  match m with
  | .badJsonMsg => (st, some .badJson)
  | .missingTypeMsg => (st, some .missingType)
  | .record r => stepRecord cfg st r
  | .stateMsg v => ({ st with ck := v }, none)
  | .schemaMsg s d k => stepSchema st s d k
  | .activateVersion => (st, none)
  | .unknownMsg _ => (st, some .unknownType)

/-- Run the dispatch loop, stopping at the first raised exception. -/
def runMsgs (cfg : Config) (st : PState) : List Msg → PState × Option Err
  | [] => (st, none)
  | m :: ms =>
    match step cfg st m with
    | (st', none) => runMsgs cfg st' ms
    | (st', some e) => (st', some e)

/-- The bulk loads the end-of-input loop performs (lines 161-163): one per
stream whose row count is positive, in stream declaration order. -/
def eofLoads (st : PState) : List (String × List String × Nat) :=
  st.rowCount.filterMap (fun p => if 0 < p.2 then some (p.1, rowsOf st p.1, p.2) else none)

/-- End-of-input flush loop: `for (stream_name, count) in row_count.items():
if count > 0: load_csv(...)`. It only calls the adapter; no state reset. -/
def finalFlush (st : PState) : PState :=
  { st with flushLog := st.flushLog ++ eofLoads st }

/-- Source `persist_lines`: dispatch every message, and on normal
end-of-input flush every non-empty buffer. An exception skips the final
loop and propagates. -/
def persist_lines (cfg : Config) (msgs : List Msg) : PState × Option Err :=
  match runMsgs cfg initState msgs with
  | (st, none) => (finalFlush st, none)
  | (st, some e) => (st, some e)

/-- Source `emit_state`: the lines written to stdout — one serialized
checkpoint when the value is not None, nothing otherwise. -/
def emit_state (s : Option String) : List String :=
  match s with
  | none => []
  | some v => [v]

/-! ## Association-list lemmas -/

theorem alookup_aset_self {α : Type} (l : List (String × α)) (k : String) (v : α) :
    alookup (aset l k v) k = some v := by
  induction l with
  | nil => simp [aset, alookup]
  | cons h t ih =>
    obtain ⟨k', v'⟩ := h
    by_cases hk : k' = k
    · simp [aset, hk, alookup]
    · simp [aset, hk, alookup, ih]

theorem alookup_aset_ne {α : Type} (l : List (String × α)) (k k' : String) (v : α)
    (h : k ≠ k') : alookup (aset l k v) k' = alookup l k' := by
  induction l with
  | nil => simp [aset, alookup, h]
  | cons hd t ih =>
    obtain ⟨k₀, v₀⟩ := hd
    by_cases hk : k₀ = k
    · subst hk
      simp [aset, alookup, h]
    · simp [aset, hk, alookup, ih]

/-! ## Observation lemmas for the buffer operations -/

theorem countOf_flush_records (st : PState) (s : String) :
    countOf (flush_records st s) s = 0 := by
  simp [countOf, flush_records, alookup_aset_self]

theorem seenOf_flush_records (st : PState) (s : String) :
    seenOf (flush_records st s) s = [] := by
  simp [seenOf, flush_records, alookup_aset_self]

theorem rowsOf_flush_records (st : PState) (s : String) :
    rowsOf (flush_records st s) s = [] := by
  simp [rowsOf, flush_records, alookup_aset_self]

theorem flushLog_flush_records (st : PState) (s : String) :
    (flush_records st s).flushLog = st.flushLog ++ [(s, rowsOf st s, countOf st s)] := rfl

theorem ck_flush_records (st : PState) (s : String) : (flush_records st s).ck = st.ck := rfl

theorem countOf_ensurePk (st : PState) (s s' : String) :
    countOf (ensurePk st s) s' = countOf st s' := by
  unfold ensurePk countOf
  split <;> rfl

theorem rowsOf_ensurePk (st : PState) (s s' : String) :
    rowsOf (ensurePk st s) s' = rowsOf st s' := by
  unfold ensurePk rowsOf
  split <;> rfl

theorem seenOf_ensurePk (st : PState) (s : String) :
    seenOf (ensurePk st s) s = seenOf st s := by
  unfold ensurePk seenOf
  split
  · rfl
  · next h =>
    rw [Option.not_isSome_iff_eq_none] at h
    simp [alookup_aset_self, h]

theorem flushLog_ensurePk (st : PState) (s : String) :
    (ensurePk st s).flushLog = st.flushLog := by
  unfold ensurePk
  split <;> rfl

theorem countOf_stage (st : PState) (s pk c : String) :
    countOf (stage st s pk c) s = countOf st s + 1 := by
  unfold stage
  split <;> simp [countOf, alookup_aset_self]

theorem rowsOf_stage (st : PState) (s pk c : String) :
    rowsOf (stage st s pk c) s = rowsOf st s ++ [c] := by
  unfold stage
  split <;> simp [rowsOf, countOf, alookup_aset_self, alookup_aset_ne]

theorem seenOf_stage (st : PState) (s pk c : String) :
    seenOf (stage st s pk c) s =
      if pk ≠ "" then insertSeen (seenOf st s) pk else seenOf st s := by
  unfold stage
  split <;> simp_all [seenOf, alookup_aset_self]

theorem flushLog_stage (st : PState) (s pk c : String) :
    (stage st s pk c).flushLog = st.flushLog := by
  unfold stage
  split <;> rfl

/-- Normal form of a successfully dispatched RECORD message. -/
theorem stepRecord_ok (cfg : Config) (st : PState) (r : RecMsg) (s : String)
    (hs : r.stream = some s) (hmem : s ∈ st.schemas) (hv : r.valid = true) :
    stepRecord cfg st r =
      (let st2 := if r.pk ≠ "" ∧ r.pk ∈ seenOf st s then flush_records (ensurePk st s) s
                  else ensurePk st s
       let st3 := stage st2 s r.pk r.csvLine
       let st4 := if batchSize cfg ≤ countOf st3 s then flush_records st3 s else st3
       ({ st4 with ck := none }, none)) := by
  simp only [stepRecord, hs, hmem, hv, if_true, seenOf_ensurePk]

/-- The stream's row count right after the triggering record is staged: a
duplicate non-empty key flushes first (count restarts at 0), then the
record itself is counted. -/
def recCount (st : PState) (r : RecMsg) (s : String) : Nat :=
  (if r.pk ≠ "" ∧ r.pk ∈ seenOf st s then 0 else countOf st s) + 1

theorem countOf_staged (st : PState) (r : RecMsg) (s : String) :
    countOf (stage (if r.pk ≠ "" ∧ r.pk ∈ seenOf st s then flush_records (ensurePk st s) s
                    else ensurePk st s) s r.pk r.csvLine) s = recCount st r s := by
  by_cases hd : r.pk ≠ "" ∧ r.pk ∈ seenOf st s <;>
    simp [recCount, hd, countOf_stage, countOf_flush_records, countOf_ensurePk]

theorem flushLog_staged (st : PState) (r : RecMsg) (s : String) :
    (stage (if r.pk ≠ "" ∧ r.pk ∈ seenOf st s then flush_records (ensurePk st s) s
            else ensurePk st s) s r.pk r.csvLine).flushLog.length =
      st.flushLog.length + (if r.pk ≠ "" ∧ r.pk ∈ seenOf st s then 1 else 0) := by
  by_cases hd : r.pk ≠ "" ∧ r.pk ∈ seenOf st s <;>
    simp [hd, flushLog_stage, flushLog_flush_records, flushLog_ensurePk]

theorem countOf_ckSet (st : PState) (v : Option String) (s : String) :
    countOf { st with ck := v } s = countOf st s := rfl

theorem flushLog_ckSet (st : PState) (v : Option String) :
    ({ st with ck := v } : PState).flushLog = st.flushLog := rfl

/-- C2: for every processed RECORD message, a threshold-triggered flush
happens iff the row count after staging reaches `batch_size` (default
100000 when the configuration has none), and such a flush resets the
stream's row count to exactly 0. -/
theorem c2_threshold_flush_iff (cfg : Config) (st : PState) (r : RecMsg) (s : String)
    (hs : r.stream = some s) (hmem : s ∈ st.schemas) (hv : r.valid = true) :
    ((stepRecord cfg st r).2 = none ∧
      countOf (stepRecord cfg st r).1 s =
        (if batchSize cfg ≤ recCount st r s then 0 else recCount st r s) ∧
      (stepRecord cfg st r).1.flushLog.length =
        st.flushLog.length + (if r.pk ≠ "" ∧ r.pk ∈ seenOf st s then 1 else 0)
          + (if batchSize cfg ≤ recCount st r s then 1 else 0)) ∧
    batchSize ⟨none⟩ = 100000 := by
  refine ⟨?_, rfl⟩
  have hc := countOf_staged st r s
  have hl := flushLog_staged st r s
  rw [stepRecord_ok cfg st r s hs hmem hv]
  simp only [hc]
  by_cases ht : batchSize cfg ≤ recCount st r s
  · simp only [ht, if_true, countOf_ckSet, flushLog_ckSet, flushLog_flush_records,
      List.length_append, hl, List.length_cons, List.length_nil]
    exact ⟨trivial, by simp [countOf, flush_records, alookup_aset_self], trivial⟩
  · simp only [ht, if_false, countOf_ckSet, flushLog_ckSet, hl]
    exact ⟨trivial, hc, by omega⟩

/-- C2 witness: a concrete record at the threshold (batch size 1) is
flushed and the count is reset to 0. -/
theorem c2_threshold_flush_iff_witness :
    (let st : PState :=
      { ck := none, schemas := ["a"], keyProps := [("a", ["id"])],
        rowCount := [("a", 0)], csvFiles := [("a", [])], pkExists := [],
        flushLog := [], prec := 28 }
     let r : RecMsg := ⟨some "a", "1", "l1", true⟩
     ((stepRecord ⟨some 1⟩ st r).2 = none ∧
       countOf (stepRecord ⟨some 1⟩ st r).1 "a" =
         (if batchSize ⟨some 1⟩ ≤ recCount st r "a" then 0 else recCount st r "a") ∧
       (stepRecord ⟨some 1⟩ st r).1.flushLog.length =
         st.flushLog.length + (if r.pk ≠ "" ∧ r.pk ∈ seenOf st "a" then 1 else 0)
           + (if batchSize ⟨some 1⟩ ≤ recCount st r "a" then 1 else 0)) ∧
     batchSize ⟨none⟩ = 100000) :=
  c2_threshold_flush_iff ⟨some 1⟩ _ _ "a" rfl (by decide) rfl

theorem rowsOf_ckSet (st : PState) (v : Option String) (s : String) :
    rowsOf { st with ck := v } s = rowsOf st s := rfl

theorem seenOf_ckSet (st : PState) (v : Option String) (s : String) :
    seenOf { st with ck := v } s = seenOf st s := rfl

/-- C1: a RECORD whose non-empty primary-key string is already in the
stream's seen-key set flushes the buffer before being staged: the load
call carries exactly the rows staged since the previous flush (without
the triggering record), and the triggering record becomes the first (and
only) entry of the fresh batch. On the concrete trace SCHEMA(a, [id]),
RECORD(a, id 1), RECORD(a, id 1), RECORD(a, id 2), EOF, exactly two bulk
loads happen: first 1 row, then 2 rows at end of input. -/
theorem c1_duplicate_key_flushes_first :
    (∀ (cfg : Config) (st : PState) (r : RecMsg) (s : String),
      r.stream = some s → s ∈ st.schemas → r.valid = true →
      r.pk ≠ "" → r.pk ∈ seenOf st s → 1 < batchSize cfg →
      (stepRecord cfg st r).2 = none ∧
      (stepRecord cfg st r).1.flushLog =
        st.flushLog ++ [(s, rowsOf st s, countOf st s)] ∧
      rowsOf (stepRecord cfg st r).1 s = [r.csvLine] ∧
      countOf (stepRecord cfg st r).1 s = 1 ∧
      seenOf (stepRecord cfg st r).1 s = [r.pk]) ∧
    ((persist_lines ⟨none⟩
        [.schemaMsg (some "a") (.obj []) (some ["id"]),
         .record ⟨some "a", "1", "l1", true⟩,
         .record ⟨some "a", "1", "l2", true⟩,
         .record ⟨some "a", "2", "l3", true⟩]).2 = none ∧
      (persist_lines ⟨none⟩
        [.schemaMsg (some "a") (.obj []) (some ["id"]),
         .record ⟨some "a", "1", "l1", true⟩,
         .record ⟨some "a", "1", "l2", true⟩,
         .record ⟨some "a", "2", "l3", true⟩]).1.flushLog =
        [("a", ["l1"], 1), ("a", ["l2", "l3"], 2)]) := by
  constructor
  · intro cfg st r s hs hmem hv hpk hseen hb
    have hd : r.pk ≠ "" ∧ r.pk ∈ seenOf st s := ⟨hpk, hseen⟩
    have hc1 : countOf (stage (flush_records (ensurePk st s) s) s r.pk r.csvLine) s = 1 := by
      rw [countOf_stage, countOf_flush_records]
    have hth : ¬ batchSize cfg ≤
        countOf (stage (flush_records (ensurePk st s) s) s r.pk r.csvLine) s := by
      rw [hc1]; omega
    rw [stepRecord_ok cfg st r s hs hmem hv]
    simp only [if_pos hd]
    simp only [if_neg hth]
    simp only [countOf_ckSet, flushLog_ckSet, rowsOf_ckSet, seenOf_ckSet]
    refine ⟨trivial, ?_, ?_, hc1, ?_⟩
    · rw [flushLog_stage, flushLog_flush_records, flushLog_ensurePk,
        rowsOf_ensurePk, countOf_ensurePk]
    · rw [rowsOf_stage, rowsOf_flush_records, List.nil_append]
    · rw [seenOf_stage, if_pos hpk, seenOf_flush_records]
      simp [insertSeen]
  · exact ⟨by decide, by decide⟩

/-- C1 witness: a concrete duplicate-key record against a buffer holding
one staged row. -/
theorem c1_duplicate_key_flushes_first_witness :
    (let st : PState :=
      { ck := none, schemas := ["a"], keyProps := [("a", ["id"])],
        rowCount := [("a", 1)], csvFiles := [("a", ["l1"])],
        pkExists := [("a", ["1"])], flushLog := [], prec := 28 }
     let r : RecMsg := ⟨some "a", "1", "l2", true⟩
     (stepRecord ⟨none⟩ st r).2 = none ∧
     (stepRecord ⟨none⟩ st r).1.flushLog =
       st.flushLog ++ [("a", rowsOf st "a", countOf st "a")] ∧
     rowsOf (stepRecord ⟨none⟩ st r).1 "a" = [r.csvLine] ∧
     countOf (stepRecord ⟨none⟩ st r).1 "a" = 1 ∧
     seenOf (stepRecord ⟨none⟩ st r).1 "a" = [r.pk]) :=
  c1_duplicate_key_flushes_first.1 ⟨none⟩ _ _ "a" rfl (by decide) rfl (by decide)
    (by decide) (by decide)

/-- C3: one flush resets the stream's row count, seen-key set and staging
block together, in the same successor state that records the bulk-load
call — no reachable post-flush state resets only some of the three. -/
theorem c3_flush_resets_together (st : PState) (s : String) :
    countOf (flush_records st s) s = 0 ∧ seenOf (flush_records st s) s = [] ∧
    rowsOf (flush_records st s) s = [] ∧
    (flush_records st s).flushLog = st.flushLog ++ [(s, rowsOf st s, countOf st s)] :=
  ⟨countOf_flush_records st s, seenOf_flush_records st s, rowsOf_flush_records st s, rfl⟩

/-- C7: a RECORD naming a stream with no processed SCHEMA fails (spec
taxonomy: ProtocolError) and returns the state entirely unchanged — no
row count, seen-key set or staging block of any stream is touched. -/
theorem c7_record_before_schema (cfg : Config) (st : PState) (r : RecMsg) (s : String)
    (hs : r.stream = some s) (hmem : s ∉ st.schemas) :
    stepRecord cfg st r = (st, some .recordBeforeSchema) ∧
    Err.recordBeforeSchema.isProtocol = true := by
  refine ⟨?_, rfl⟩
  simp only [stepRecord, hs]
  rw [if_neg hmem]

/-- C7 witness: a record for stream a against the initial (schemaless)
state. -/
theorem c7_record_before_schema_witness :
    stepRecord ⟨none⟩ initState ⟨some "a", "", "x", true⟩ =
      (initState, some Err.recordBeforeSchema) ∧
    Err.recordBeforeSchema.isProtocol = true :=
  c7_record_before_schema ⟨none⟩ initState ⟨some "a", "", "x", true⟩ "a" rfl (by decide)

/-- C9: a SCHEMA message without the key_properties field fails (spec
taxonomy: ProtocolError). -/
theorem c9_schema_missing_key_properties (st : PState) (s : String) (doc : JSchema)
    (p : ℤ) (hw : walkPrec doc st.prec = some p) :
    (stepSchema st (some s) doc none).2 = some .missingKeyProperties ∧
    Err.missingKeyProperties.isProtocol = true := by
  refine ⟨?_, rfl⟩
  simp only [stepSchema]
  rw [show ({ st with schemas := insertStream st.schemas s } : PState).prec = st.prec
    from rfl, hw]

/-- C9 witness: an empty-object schema with no key_properties against the
initial state. -/
theorem c9_schema_missing_key_properties_witness :
    (stepSchema initState (some "a") (.obj []) none).2 = some Err.missingKeyProperties ∧
    Err.missingKeyProperties.isProtocol = true :=
  c9_schema_missing_key_properties initState "a" (.obj []) 28 (by decide)

/-! ## Checkpoint bookkeeping -/

/-- How one dispatched message transforms the pending checkpoint: a STATE
message installs its value, a successfully processed RECORD clears it to
None (source line 135), everything else leaves it alone. -/
def ckOfMsg (acc : Option String) : Msg → Option String
  | .stateMsg v => v
  | .record _ => none
  | _ => acc

/-- The checkpoint left pending after a whole message sequence. -/
def lastCk (msgs : List Msg) : Option String := msgs.foldl ckOfMsg none

theorem stepRecord_ck (cfg : Config) (st : PState) (r : RecMsg) (st' : PState)
    (h : stepRecord cfg st r = (st', none)) : st'.ck = none := by
  unfold stepRecord at h
  split at h
  · simp at h
  · split at h
    · split at h
      · simp only [Prod.mk.injEq] at h
        rw [← h.1]
      · simp at h
    · simp at h

theorem stepSchema_ck (st : PState) (s? : Option String) (d : JSchema)
    (k? : Option (List String)) (st' : PState)
    (h : stepSchema st s? d k? = (st', none)) : st'.ck = st.ck := by
  cases s? with
  | none => simp [stepSchema] at h
  | some s =>
    cases hw : walkPrec d st.prec with
    | none => simp [stepSchema, hw] at h
    | some p =>
      cases k? with
      | none => simp [stepSchema, hw] at h
      | some kp =>
        simp only [stepSchema, hw, Prod.mk.injEq] at h
        rw [← h.1]

theorem step_ck (cfg : Config) (st : PState) (m : Msg) (st' : PState)
    (h : step cfg st m = (st', none)) : st'.ck = ckOfMsg st.ck m := by
  cases m with
  | record r => simpa [ckOfMsg] using stepRecord_ck cfg st r st' h
  | stateMsg v =>
    simp only [step, Prod.mk.injEq] at h
    rw [← h.1]
    rfl
  | schemaMsg s d k => simpa [ckOfMsg] using stepSchema_ck st s d k st' h
  | activateVersion =>
    simp only [step, Prod.mk.injEq] at h
    rw [← h.1]
    rfl
  | unknownMsg t => simp [step] at h
  | missingTypeMsg => simp [step] at h
  | badJsonMsg => simp [step] at h

theorem runMsgs_ck (cfg : Config) (msgs : List Msg) (st st' : PState)
    (h : runMsgs cfg st msgs = (st', none)) : st'.ck = msgs.foldl ckOfMsg st.ck := by
  induction msgs generalizing st with
  | nil =>
    simp only [runMsgs, Prod.mk.injEq] at h
    rw [← h.1, List.foldl_nil]
  | cons m ms ih =>
    unfold runMsgs at h
    split at h
    · next st1 hstep =>
      rw [List.foldl_cons, ← step_ck cfg st m st1 hstep]
      exact ih st1 h
    · simp at h

theorem persist_lines_ck (cfg : Config) (msgs : List Msg) (st : PState)
    (h : persist_lines cfg msgs = (st, none)) : st.ck = lastCk msgs := by
  unfold persist_lines at h
  split at h
  · next st0 hrun =>
    simp only [Prod.mk.injEq] at h
    rw [← h.1]
    exact runMsgs_ck cfg msgs initState st0 hrun
  · simp at h

theorem foldl_ck_noState (b : List Msg) (hb : ∀ v, Msg.stateMsg v ∉ b) :
    List.foldl ckOfMsg none b = none := by
  induction b with
  | nil => rfl
  | cons m ms ih =>
    have hms : ∀ v, Msg.stateMsg v ∉ ms := fun v hv => hb v (List.mem_cons_of_mem _ hv)
    rw [List.foldl_cons]
    cases m with
    | stateMsg v => exact absurd (List.mem_cons_self _ _) (hb v)
    | record r => exact ih hms
    | schemaMsg s d k => exact ih hms
    | activateVersion => exact ih hms
    | unknownMsg t => exact ih hms
    | missingTypeMsg => exact ih hms
    | badJsonMsg => exact ih hms

/-- C4 counterexample: on SCHEMA(a), STATE("v"), RECORD(a) the run ends
normally with every record flushed and no later STATE message, yet the
final pending checkpoint is None and nothing is emitted — the RECORD
message (not a newer STATE) wiped the pending value "v". -/
theorem c4_counterexample_record_wipes_checkpoint :
    (persist_lines ⟨none⟩
      [.schemaMsg (some "a") (.obj []) (some ["id"]), .stateMsg (some "v"),
       .record ⟨some "a", "1", "l1", true⟩]).2 = none ∧
    (persist_lines ⟨none⟩
      [.schemaMsg (some "a") (.obj []) (some ["id"]), .stateMsg (some "v"),
       .record ⟨some "a", "1", "l1", true⟩]).1.flushLog = [("a", ["l1"], 1)] ∧
    (persist_lines ⟨none⟩
      [.schemaMsg (some "a") (.obj []) (some ["id"]), .stateMsg (some "v"),
       .record ⟨some "a", "1", "l1", true⟩]).1.ck = none ∧
    emit_state (persist_lines ⟨none⟩
      [.schemaMsg (some "a") (.obj []) (some ["id"]), .stateMsg (some "v"),
       .record ⟨some "a", "1", "l1", true⟩]).1.ck = [] := by
  refine ⟨by decide, by decide, by decide, by decide⟩

/-- C4 amended: the pending checkpoint after a successful run is the fold
of last-write-wins updates where a STATE message installs its value and a
processed RECORD message clears it to None; a STATE value survives to the
final emitted checkpoint only when no later STATE or RECORD message
follows it. -/
theorem c4_amended_checkpoint_last_write (cfg : Config) (msgs : List Msg) (st : PState)
    (h : persist_lines cfg msgs = (st, none)) : st.ck = lastCk msgs :=
  persist_lines_ck cfg msgs st h

/-- C4 amended witness: a run ending in a STATE message keeps its value. -/
theorem c4_amended_checkpoint_last_write_witness :
    (persist_lines ⟨none⟩ [.stateMsg (some "v")]).1.ck = lastCk [.stateMsg (some "v")] :=
  c4_amended_checkpoint_last_write ⟨none⟩ [.stateMsg (some "v")]
    (persist_lines ⟨none⟩ [.stateMsg (some "v")]).1 (by decide)

/-- C10: a processed RECORD message sets the pending checkpoint to None;
`emit_state` writes no line when the checkpoint is None; hence a
successful run containing a RECORD with no STATE after it emits no final
checkpoint at all. -/
theorem c10_record_clears_pending_checkpoint :
    (∀ (cfg : Config) (st : PState) (r : RecMsg) (st' : PState),
      stepRecord cfg st r = (st', none) → st'.ck = none) ∧
    emit_state none = [] ∧
    (∀ (cfg : Config) (a b : List Msg) (r : RecMsg) (st : PState),
      (∀ v, Msg.stateMsg v ∉ b) →
      persist_lines cfg (a ++ Msg.record r :: b) = (st, none) →
      emit_state st.ck = []) := by
  refine ⟨stepRecord_ck, rfl, ?_⟩
  intro cfg a b r st hb h
  have h1 : st.ck = lastCk (a ++ Msg.record r :: b) := persist_lines_ck _ _ _ h
  have h2 : lastCk (a ++ Msg.record r :: b) = none := by
    unfold lastCk
    rw [List.foldl_append, List.foldl_cons,
      show ckOfMsg (List.foldl ckOfMsg none a) (Msg.record r) = none from rfl]
    exact foldl_ck_noState b hb
  rw [h1, h2]
  rfl

/-- C10 witness: the concrete STATE-then-RECORD run emits nothing. -/
theorem c10_record_clears_pending_checkpoint_witness :
    emit_state (persist_lines ⟨none⟩
      [.schemaMsg (some "a") (.obj []) (some ["id"]), .stateMsg (some "v2"),
       .record ⟨some "a", "1", "l1", true⟩]).1.ck = [] :=
  c10_record_clears_pending_checkpoint.2.2 ⟨none⟩
    [.schemaMsg (some "a") (.obj []) (some ["id"]), .stateMsg (some "v2")] []
    ⟨some "a", "1", "l1", true⟩ _
    (fun v => List.not_mem_nil _) (by decide)

/-- C8 counterexample: `flush_records` is not a no-op at row count 0, and
the condition is reachable: re-declaring a stream's SCHEMA resets its row
count but not its seen-key set, so the next duplicate key flushes an
empty buffer — the run's first bulk-load call carries 0 rows. Directly,
`flush_records` on a zero-count stream still makes a bulk-load call and
still rewrites the stream's state. -/
theorem c8_counterexample_flush_at_zero :
    ((persist_lines ⟨none⟩
      [.schemaMsg (some "a") (.obj []) (some ["id"]),
       .record ⟨some "a", "1", "l1", true⟩,
       .schemaMsg (some "a") (.obj []) (some ["id"]),
       .record ⟨some "a", "1", "l2", true⟩]).1.flushLog
      = [("a", [], 0), ("a", ["l2"], 1)]) ∧
    (let st0 : PState :=
      { ck := none, schemas := ["a"], keyProps := [("a", ["id"])],
        rowCount := [("a", 0)], csvFiles := [("a", [])],
        pkExists := [("a", ["1"])], flushLog := [], prec := 28 }
     countOf st0 "a" = 0 ∧ flush_records st0 "a" ≠ st0 ∧
     (flush_records st0 "a").flushLog = [("a", [], 0)] ∧
     seenOf (flush_records st0 "a") "a" ≠ seenOf st0 "a") := by
  exact ⟨by decide, by decide, by decide, by decide, by decide⟩

/-- C8 amended: the no-op-at-zero-rows guard belongs to the end-of-input
flush loop, not to `flush_records`: the final loop bulk-loads only
streams whose row count is positive and never mutates stream state, while
`flush_records`, whenever invoked, always makes exactly one bulk-load
call, with the current (possibly zero) row count. -/
theorem c8_amended_eof_skips_empty :
    (∀ (st : PState) (e : String × List String × Nat), e ∈ eofLoads st → 0 < e.2.2) ∧
    (∀ st : PState, (finalFlush st).rowCount = st.rowCount ∧
      (finalFlush st).csvFiles = st.csvFiles ∧ (finalFlush st).pkExists = st.pkExists ∧
      (finalFlush st).flushLog = st.flushLog ++ eofLoads st) ∧
    (∀ (st : PState) (s : String),
      (flush_records st s).flushLog = st.flushLog ++ [(s, rowsOf st s, countOf st s)]) := by
  refine ⟨?_, fun st => ⟨rfl, rfl, rfl, rfl⟩, fun st s => rfl⟩
  intro st e he
  unfold eofLoads at he
  rw [List.mem_filterMap] at he
  obtain ⟨p, hp, hf⟩ := he
  by_cases h0 : 0 < p.2
  · rw [if_pos h0] at hf
    cases hf
    exact h0
  · rw [if_neg h0] at hf
    exact absurd hf (Option.noConfusion)

/-- C8 amended witness: the EOF loop's only load for a one-row stream has
a positive count. -/
theorem c8_amended_eof_skips_empty_witness :
    0 < (("a", ["x"], 1) : String × List String × Nat).2.2 :=
  c8_amended_eof_skips_empty.1
    { ck := none, schemas := ["a"], keyProps := [("a", ["id"])],
      rowCount := [("a", 1)], csvFiles := [("a", ["x"])], pkExists := [],
      flushLog := [], prec := 28 }
    ("a", ["x"], 1) (by decide)

mutual

theorem walkPrec_mono (s : JSchema) (p p' : ℤ) (h : walkPrec s p = some p') : p ≤ p' := by
  cases s with
  | arr l => exact walkPrecList_mono l p p' (by simpa only [walkPrec] using h)
  | obj l =>
    simp only [walkPrec] at h
    by_cases hn : numeric_schema_with_precision l
    · rw [if_pos hn] at h
      cases hf : fragPrecision l with
      | none => rw [hf] at h; exact Option.noConfusion h
      | some pr =>
        rw [hf] at h
        injection h with h'
        subst h'
        split <;> omega
    · rw [if_neg hn] at h
      exact walkPrecVals_mono l p p' h
  | num q => simp only [walkPrec] at h; injection h with h'; omega
  | str v => simp only [walkPrec] at h; injection h with h'; omega
  | boolV b => simp only [walkPrec] at h; injection h with h'; omega
  | nullV => simp only [walkPrec] at h; injection h with h'; omega

theorem walkPrecList_mono (l : List JSchema) (p p' : ℤ)
    (h : walkPrecList l p = some p') : p ≤ p' := by
  cases l with
  | nil => simp only [walkPrecList] at h; injection h with h'; omega
  | cons x xs =>
    simp only [walkPrecList] at h
    cases hx : walkPrec x p with
    | none => rw [hx] at h; exact Option.noConfusion h
    | some p1 =>
      rw [hx] at h
      exact le_trans (walkPrec_mono x p p1 hx) (walkPrecList_mono xs p1 p' h)

theorem walkPrecVals_mono (l : List (String × JSchema)) (p p' : ℤ)
    (h : walkPrecVals l p = some p') : p ≤ p' := by
  cases l with
  | nil => simp only [walkPrecVals] at h; injection h with h'; omega
  | cons x xs =>
    simp only [walkPrecVals] at h
    cases hx : walkPrec x.2 p with
    | none => rw [hx] at h; exact Option.noConfusion h
    | some p1 =>
      rw [hx] at h
      exact le_trans (walkPrec_mono x.2 p p1 hx) (walkPrecVals_mono xs p1 p' h)

end

/-! ## Concrete values of the calibrator's floor and ceiling logs -/

theorem int_log10_eq (z : ℤ) (r : ℚ) (hr : 0 < r) (h1 : (10:ℚ) ^ z ≤ r)
    (h2 : r < (10:ℚ) ^ (z + 1)) : Int.log 10 r = z := by
  have hb : 1 < (10:ℕ) := by norm_num
  have h1' : ((10:ℕ):ℚ) ^ z ≤ r := by exact_mod_cast h1
  have h2' : r < ((10:ℕ):ℚ) ^ (z + 1) := by exact_mod_cast h2
  have hle := (Int.zpow_le_iff_le_log hb hr).mp h1'
  have hlt := (Int.lt_zpow_iff_log_lt hb hr).mp h2'
  omega

theorem int_clog10_eq (z : ℤ) (r : ℚ) (hr : 0 < r) (h1 : (10:ℚ) ^ (z - 1) < r)
    (h2 : r ≤ (10:ℚ) ^ z) : Int.clog 10 r = z := by
  have hb : 1 < (10:ℕ) := by norm_num
  have h1' : ((10:ℕ):ℚ) ^ (z - 1) < r := by exact_mod_cast h1
  have h2' : r ≤ ((10:ℕ):ℚ) ^ z := by exact_mod_cast h2
  have hle := (Int.le_zpow_iff_clog_le hb hr).mp h2'
  have hlt := (Int.zpow_lt_iff_lt_clog hb hr).mp h1'
  omega

example : Int.clog 10 (10000:ℚ) = 4 := int_clog10_eq 4 _ (by norm_num) (by norm_num) (by norm_num)
example : Int.clog 10 (10000000:ℚ) = 7 := int_clog10_eq 7 _ (by norm_num) (by norm_num) (by norm_num)
example : Int.log 10 ((1:ℚ)/20) = -2 := int_log10_eq (-2) _ (by norm_num) (by norm_num) (by norm_num)
example : Int.clog 10 ((1:ℚ)/20) = -1 := int_clog10_eq (-1) _ (by norm_num) (by norm_num) (by norm_num)
example : Int.clog 10 (1:ℚ) = 0 := Int.clog_one_right _

/-- A constrained numeric fragment with all three bounds present, as the
calibrator sees it. -/
def numFrag (m mn mx : ℚ) : List (String × JSchema) :=
  [("type", .str "number"), ("multipleOf", .num m), ("minimum", .num mn),
   ("maximum", .num mx)]

/-- The integer `get_precision` yields for a present positive value:
floor of log10 below 1, ceiling otherwise (via `Int.log` / `Int.clog`). -/
def gpv (q : ℚ) : ℤ := if q < 1 then Int.log 10 q else Int.clog 10 q

theorem numeric_numFrag (m mn mx : ℚ) :
    numeric_schema_with_precision (numFrag m mn mx) = true := rfl

theorem get_precision_numFrag_multipleOf (m mn mx : ℚ) (hm : 0 < m) :
    get_precision (numFrag m mn mx) "multipleOf" = some (gpv m) := by
  simp [get_precision, numFrag, alookup, logArg, gpv, hm]

theorem get_precision_numFrag_minimum (m mn mx : ℚ) (hmn : 0 < mn) :
    get_precision (numFrag m mn mx) "minimum" = some (gpv mn) := by
  simp [get_precision, numFrag, alookup, logArg, gpv, hmn]

theorem get_precision_numFrag_maximum (m mn mx : ℚ) (hmx : 0 < mx) :
    get_precision (numFrag m mn mx) "maximum" = some (gpv mx) := by
  simp [get_precision, numFrag, alookup, logArg, gpv, hmx]

theorem fragPrecision_numFrag (m mn mx : ℚ) (hm : 0 < m) (hmn : 0 < mn) (hmx : 0 < mx) :
    fragPrecision (numFrag m mn mx) = some (max (gpv mn) (gpv mx) - gpv m) := by
  simp [fragPrecision, get_precision_numFrag_multipleOf m mn mx hm,
    get_precision_numFrag_minimum m mn mx hmn, get_precision_numFrag_maximum m mn mx hmx,
    sub_eq_add_neg]

theorem gpv_one : gpv 1 = 0 := by simp [gpv, Int.clog_one_right]

theorem frag4_value : fragPrecision (numFrag 1 10000 1) = some 4 := by
  rw [fragPrecision_numFrag 1 10000 1 (by norm_num) (by norm_num) (by norm_num), gpv_one]
  rw [show gpv 10000 = 4 by
    simp only [gpv, show ¬((10000:ℚ) < 1) by norm_num, if_false]
    exact int_clog10_eq 4 _ (by norm_num) (by norm_num) (by norm_num)]
  norm_num

theorem frag7_value : fragPrecision (numFrag 1 10000000 1) = some 7 := by
  rw [fragPrecision_numFrag 1 10000000 1 (by norm_num) (by norm_num) (by norm_num), gpv_one]
  rw [show gpv 10000000 = 7 by
    simp only [gpv, show ¬((10000000:ℚ) < 1) by norm_num, if_false]
    exact int_clog10_eq 7 _ (by norm_num) (by norm_num) (by norm_num)]
  norm_num

theorem walkPrecList_cons_some (x : JSchema) (xs : List JSchema) (p p1 : ℤ)
    (h : walkPrec x p = some p1) :
    walkPrecList (x :: xs) p = walkPrecList xs p1 := by
  simp only [walkPrecList, h]

theorem wp_frag4 (p : ℤ) (h : p < 4) : walkPrec (.obj (numFrag 1 10000 1)) p = some 4 := by
  simp only [walkPrec, numeric_numFrag, if_true, frag4_value, if_pos h]

theorem wp_frag4_ge (p : ℤ) (h : ¬ p < 4) :
    walkPrec (.obj (numFrag 1 10000 1)) p = some p := by
  simp only [walkPrec, numeric_numFrag, if_true, frag4_value, if_neg h]

theorem wp_frag7 (p : ℤ) (h : p < 7) :
    walkPrec (.obj (numFrag 1 10000000 1)) p = some 7 := by
  simp only [walkPrec, numeric_numFrag, if_true, frag7_value, if_pos h]

theorem walkList_frag4_frag7 :
    walkPrecList [.obj (numFrag 1 10000 1), .obj (numFrag 1 10000000 1)] 1 = some 7 := by
  rw [walkPrecList_cons_some _ _ _ _ (wp_frag4 1 (by norm_num)),
    walkPrecList_cons_some _ _ _ _ (wp_frag7 4 (by norm_num))]
  rfl

theorem walkList_frag7_frag4 :
    walkPrecList [.obj (numFrag 1 10000000 1), .obj (numFrag 1 10000 1)] 1 = some 7 := by
  rw [walkPrecList_cons_some _ _ _ _ (wp_frag7 1 (by norm_num)),
    walkPrecList_cons_some _ _ _ _ (wp_frag4_ge 7 (by norm_num))]
  rfl

/-- C6: the process-wide decimal precision threaded through the schema
walk never decreases, and two constrained numeric fragments of required
precisions r1 and r2 walked in either order leave it at least as large as
both (and as the starting value) — in particular precisions 4 and 7 in
either order end at ≥ 7. -/
theorem c6_precision_monotone :
    (∀ (s : JSchema) (p p' : ℤ), walkPrec s p = some p' → p ≤ p') ∧
    (∀ (l₁ l₂ : List (String × JSchema)) (p r₁ r₂ q : ℤ),
      fragPrecision l₁ = some r₁ → fragPrecision l₂ = some r₂ →
      numeric_schema_with_precision l₁ = true →
      numeric_schema_with_precision l₂ = true →
      walkPrecList [.obj l₁, .obj l₂] p = some q →
      r₁ ≤ q ∧ r₂ ≤ q ∧ p ≤ q) := by
  refine ⟨walkPrec_mono, ?_⟩
  intro l₁ l₂ p r₁ r₂ q h1 h2 hn1 hn2 hw
  simp only [walkPrecList, walkPrec, hn1, hn2, if_true, h1, h2] at hw
  injection hw with hw'
  subst hw'
  split_ifs <;> omega

/-- C6 witness: required precisions 4 and 7, walked in both orders from
starting precision 1, both end at 7. -/
theorem c6_precision_monotone_witness :
    ((4:ℤ) ≤ 7 ∧ (7:ℤ) ≤ 7 ∧ (1:ℤ) ≤ 7) ∧
    ((7:ℤ) ≤ 7 ∧ (4:ℤ) ≤ 7 ∧ (1:ℤ) ≤ 7) :=
  ⟨c6_precision_monotone.2 (numFrag 1 10000 1) (numFrag 1 10000000 1) 1 4 7 7
      frag4_value frag7_value rfl rfl walkList_frag4_frag7,
   c6_precision_monotone.2 (numFrag 1 10000000 1) (numFrag 1 10000 1) 1 7 4 7
      frag7_value frag4_value rfl rfl walkList_frag7_frag4⟩

/-! ## C5: the claimed formula versus the code's formula -/

/-- The per-value exponent as the spec's sentence words it (claim C5):
ceiling of log10 below 1, floor otherwise — the reverse pairing of the
code's. Declared only for comparison with `gpv`. -/
def gpvSpec (q : ℚ) : ℤ := if q < 1 then Int.clog 10 q else Int.log 10 q

/-- `get_precision` as the spec's sentence describes it, for comparison. -/
def get_precision_spec (l : List (String × JSchema)) (key : String) : Option ℤ :=
  match (match alookup l key with | none => some (1 : ℚ) | some j => logArg j) with
  | none => none
  | some q => if 0 < q then some (gpvSpec q) else none

/-- The fragment precision as the spec's sentence describes it:
digits + scale with both computed from `gpvSpec`. -/
def fragPrecisionSpec (l : List (String × JSchema)) : Option ℤ :=
  match get_precision_spec l "multipleOf" with
  | none => none
  | some m =>
    match get_precision_spec l "minimum", get_precision_spec l "maximum" with
    | some mn, some mx => some (max mn mx + (-m))
    | _, _ => none

theorem get_precision_spec_numFrag_multipleOf (m mn mx : ℚ) (hm : 0 < m) :
    get_precision_spec (numFrag m mn mx) "multipleOf" = some (gpvSpec m) := by
  simp [get_precision_spec, numFrag, alookup, logArg, hm]

theorem get_precision_spec_numFrag_minimum (m mn mx : ℚ) (hmn : 0 < mn) :
    get_precision_spec (numFrag m mn mx) "minimum" = some (gpvSpec mn) := by
  simp [get_precision_spec, numFrag, alookup, logArg, hmn]

theorem get_precision_spec_numFrag_maximum (m mn mx : ℚ) (hmx : 0 < mx) :
    get_precision_spec (numFrag m mn mx) "maximum" = some (gpvSpec mx) := by
  simp [get_precision_spec, numFrag, alookup, logArg, hmx]

theorem fragPrecisionSpec_numFrag (m mn mx : ℚ) (hm : 0 < m) (hmn : 0 < mn)
    (hmx : 0 < mx) :
    fragPrecisionSpec (numFrag m mn mx) = some (max (gpvSpec mn) (gpvSpec mx) - gpvSpec m) := by
  simp [fragPrecisionSpec, get_precision_spec_numFrag_multipleOf m mn mx hm,
    get_precision_spec_numFrag_minimum m mn mx hmn,
    get_precision_spec_numFrag_maximum m mn mx hmx, sub_eq_add_neg]

theorem gpv_twentieth : gpv (1/20) = -2 := by
  rw [gpv, if_pos (by norm_num : (1:ℚ)/20 < 1)]
  exact int_log10_eq (-2) _ (by norm_num) (by norm_num) (by norm_num)

theorem gpvSpec_twentieth : gpvSpec (1/20) = -1 := by
  rw [gpvSpec, if_pos (by norm_num : (1:ℚ)/20 < 1)]
  exact int_clog10_eq (-1) _ (by norm_num) (by norm_num) (by norm_num)

theorem gpvSpec_one : gpvSpec 1 = 0 := by simp [gpvSpec, Int.log_one_right]

/-- C5 counterexample: on the constrained numeric fragment with
multipleOf = 1/20 (minimum = maximum = 1, where every reading of the
digits clause gives 0), the code computes precision 2 — scale is the
negated floor of log10(1/20) — while the claim's formula (negated
ceiling below 1) gives precision 1. -/
theorem c5_counterexample_floor_ceil_swapped :
    fragPrecision (numFrag (1/20) 1 1) = some 2 ∧
    fragPrecisionSpec (numFrag (1/20) 1 1) = some 1 ∧
    fragPrecision (numFrag (1/20) 1 1) ≠ fragPrecisionSpec (numFrag (1/20) 1 1) := by
  have hc : fragPrecision (numFrag (1/20) 1 1) = some 2 := by
    rw [fragPrecision_numFrag (1/20) 1 1 (by norm_num) one_pos one_pos, gpv_one,
      gpv_twentieth]
    norm_num
  have hs : fragPrecisionSpec (numFrag (1/20) 1 1) = some 1 := by
    rw [fragPrecisionSpec_numFrag (1/20) 1 1 (by norm_num) one_pos one_pos, gpvSpec_one,
      gpvSpec_twentieth]
    norm_num
  refine ⟨hc, hs, ?_⟩
  rw [hc, hs]
  decide

/-! ## C5 amended: the code's formula in terms of real log10 -/

theorem natFloor_ratCast (q : ℚ) : ⌊(q:ℝ)⌋₊ = ⌊q⌋₊ := by
  rw [← Int.floor_toNat, ← Int.floor_toNat, Rat.floor_cast]

theorem natCeil_ratCast (q : ℚ) : ⌈(q:ℝ)⌉₊ = ⌈q⌉₊ := by
  rw [← Int.ceil_toNat, ← Int.ceil_toNat, Rat.ceil_cast]

theorem intLog_ratCast (q : ℚ) : Int.log 10 ((q:ℝ)) = Int.log 10 q := by
  by_cases h : 1 ≤ q
  · rw [Int.log_of_one_le_right _ h,
      Int.log_of_one_le_right _ (show (1:ℝ) ≤ (q:ℝ) by exact_mod_cast h), natFloor_ratCast]
  · rw [Int.log_of_right_le_one _ (le_of_not_le h),
      Int.log_of_right_le_one _ (show (q:ℝ) ≤ 1 by exact_mod_cast le_of_not_le h),
      ← Rat.cast_inv, natCeil_ratCast]

theorem intClog_ratCast (q : ℚ) : Int.clog 10 ((q:ℝ)) = Int.clog 10 q := by
  by_cases h : 1 ≤ q
  · rw [Int.clog_of_one_le_right _ h,
      Int.clog_of_one_le_right _ (show (1:ℝ) ≤ (q:ℝ) by exact_mod_cast h), natCeil_ratCast]
  · rw [Int.clog_of_right_le_one _ (le_of_not_le h),
      Int.clog_of_right_le_one _ (show (q:ℝ) ≤ 1 by exact_mod_cast le_of_not_le h),
      ← Rat.cast_inv, natFloor_ratCast]

/-- The order-of-magnitude exponent the code computes, written with the
real base-10 logarithm: floor of log10 below 1, ceiling otherwise. This
is the mathematical reading the amended claim is stated against; the
executable counterpart from the source is `gpv`. -/
noncomputable def rlogd (q : ℚ) : ℤ :=
  if q < 1 then ⌊Real.logb 10 (q:ℝ)⌋ else ⌈Real.logb 10 (q:ℝ)⌉

theorem gpv_eq_rlogd (q : ℚ) (hq : 0 < q) : gpv q = rlogd q := by
  have hr : (0:ℝ) ≤ (q:ℝ) := by exact_mod_cast hq.le
  rw [gpv, rlogd, show (10:ℝ) = ((10:ℕ):ℝ) by norm_num]
  by_cases h : q < 1
  · rw [if_pos h, if_pos h, Real.floor_logb_natCast hr, intLog_ratCast]
  · rw [if_neg h, if_neg h, Real.ceil_logb_natCast hr, intClog_ratCast]

/-- C5 amended: for a constrained numeric fragment with positive bounds,
the calibrator computes scale as the negated floor of log10(multipleOf)
when multipleOf is below 1 and the negated ceiling otherwise (floor and
ceiling the reverse of the claim's wording), digits as the larger of the
same exponent for minimum and maximum, and precision = digits + scale. -/
theorem c5_amended_calibrator_formula (m mn mx : ℚ) (hm : 0 < m) (hmn : 0 < mn)
    (hmx : 0 < mx) :
    fragPrecision (numFrag m mn mx) = some (max (rlogd mn) (rlogd mx) - rlogd m) := by
  rw [fragPrecision_numFrag m mn mx hm hmn hmx, gpv_eq_rlogd m hm, gpv_eq_rlogd mn hmn,
    gpv_eq_rlogd mx hmx]

/-- C5 amended witness: the formula evaluated at multipleOf = 1/20. -/
theorem c5_amended_calibrator_formula_witness :
    fragPrecision (numFrag (1/20) 1 1) = some (max (rlogd 1) (rlogd 1) - rlogd (1/20)) :=
  c5_amended_calibrator_formula (1/20) 1 1 (by norm_num) one_pos one_pos
